/-
Verification of the WhatBeats frontend (src/frontend/app.js, src/frontend/admin.js,
the API service) and, where the FastAPI backend is absent from the repository,
of the backend behaviour modelled from spec.md.

Strings from the JavaScript side are embedded as lists of Unicode code points
(`List Nat`), so that character-level operations (case folding, the character
class of the validation regular expressions) are plain arithmetic.
-/
import Mathlib

namespace WhatBeats

/-- A JavaScript string, as its list of code points. -/
abbrev JStr := List Nat

/-- Code points of a Lean string literal, used to write concrete JS strings. -/
def codes (s : String) : JStr := s.data.map Char.toNat

/-- ASCII lower-casing of one code point, as performed by the character class
checks (`65`–`90` are `A`–`Z`). -/
def jsToLower (c : Nat) : Nat := if 65 ≤ c ∧ c ≤ 90 then c + 32 else c

/-- Lower-casing of a whole string (`String.prototype.toLowerCase` restricted
to ASCII, which is all the comparisons in the source use it for). -/
def lowerStr (s : JStr) : JStr := s.map jsToLower

/-- The code points matched by the JavaScript regex class `\s` (ECMAScript
WhiteSpace and LineTerminator). -/
def isJsSpace (c : Nat) : Bool :=
  c = 9 ∨ c = 10 ∨ c = 11 ∨ c = 12 ∨ c = 13 ∨ c = 32 ∨ c = 160 ∨ c = 5760 ∨
  (8192 ≤ c ∧ c ≤ 8202) ∨ c = 8232 ∨ c = 8233 ∨ c = 8239 ∨ c = 8287 ∨
  c = 12288 ∨ c = 65279

/-- The character class `[a-zA-Z0-9\s.,!?-]` of the validation regexes in
src/frontend/app.js (`validateUserInput`, `validateUserInputBeforeSubmit`). -/
def isAllowedCode (c : Nat) : Bool :=
  (97 ≤ c ∧ c ≤ 122) ∨ (65 ≤ c ∧ c ≤ 90) ∨ (48 ≤ c ∧ c ≤ 57) ∨
  isJsSpace c ∨ c = 46 ∨ c = 44 ∨ c = 33 ∨ c = 63 ∨ c = 45

/-- Predicate `leadsWith p l` holds when the string `l` starts with the pattern `p`. -/
def leadsWith : JStr → JStr → Bool
  | [], _ => true
  | _ :: _, [] => false
  | p :: ps, l :: ls => (p == l) && leadsWith ps ls

/-- Predicate `containsSeq l p`: the pattern `p` occurs as a contiguous substring of `l`
(how an unanchored regex literal matches). -/
def containsSeq : JStr → JStr → Bool
  | [], p => leadsWith p []
  | l@(_ :: ls), p => leadsWith p l || containsSeq ls p

/-- Embedding of `String.prototype.trim`: strip leading and trailing whitespace. -/
def jsTrim (s : JStr) : JStr :=
  ((s.dropWhile isJsSpace).reverse.dropWhile isJsSpace).reverse

/-- Result object of `validateUserInputBeforeSubmit` (src/frontend/app.js):
a `valid` flag and the error message, when present. -/
structure ValidationResult where
  valid : Bool
  message : Option String
  deriving DecidableEq, Repr

/-- The harmful-pattern test
`/<script|javascript:|onerror=|onclick=|alert\(|eval\(|document\.cookie/i`
of `validateUserInputBeforeSubmit`: case-insensitive matching of any of the
seven literal alternatives. -/
def harmfulTest (s : JStr) : Bool :=
  containsSeq (lowerStr s) (codes "<script") ||
  containsSeq (lowerStr s) (codes "javascript:") ||
  containsSeq (lowerStr s) (codes "onerror=") ||
  containsSeq (lowerStr s) (codes "onclick=") ||
  containsSeq (lowerStr s) (codes "alert(") ||
  containsSeq (lowerStr s) (codes "eval(") ||
  containsSeq (lowerStr s) (codes "document.cookie")

/-- The character-class test `/^[a-zA-Z0-9\s.,!?-]+$/.test(s)`: `s` is
non-empty and every code point lies in the class. -/
def charClassTest (s : JStr) : Bool :=
  !s.isEmpty && s.all isAllowedCode

/-- Embedding of `validateUserInputBeforeSubmit` (src/frontend/app.js lines 1435–1461):
length check, character-class check, then the harmful-pattern check. -/
def validateUserInputBeforeSubmit (userInput : JStr) : ValidationResult :=
  if userInput.length > 50 then
    { valid := false, message := some "Input too long (max 50 characters)" }
  else if !charClassTest userInput then
    { valid := false, message := some "Input contains invalid characters" }
  else if harmfulTest userInput then
    { valid := false, message := some "Input contains potentially harmful content" }
  else
    { valid := true, message := none }

/-- The claim-side characterisation of a valid input: non-empty, at most 50
characters, all characters in the allowed class, and no occurrence of
`document.cookie` ignoring case. -/
def specValidInput (s : JStr) : Prop :=
  s ≠ [] ∧ s.length ≤ 50 ∧ s.all isAllowedCode = true ∧
  containsSeq (lowerStr s) (codes "document.cookie") = false

instance (s : JStr) : Decidable (specValidInput s) := by
  unfold specValidInput; infer_instance

/-! ## Session Engine (backend, modelled from the spec) and frontend game state -/

/-- The seed item `"rock"`. -/
def rockItem : JStr := codes "rock"

/-- Modelled from the spec: the backend `GameSession` record of the Session
Engine (the FastAPI backend is absent from the repository): current item,
accumulated score, ordered list of used items, active flag (spec.md §3). -/
structure GameSession where
  currentItem : JStr
  score : Nat
  usedItems : List JStr
  isActive : Bool
  deriving DecidableEq, Repr

/-- Modelled from the spec: `start()` of the Session Engine creates a
GameSession with seed item "rock", score 0, used-items = [seed], Active
(spec.md §4.3); the integration test asserts `current_item === 'rock'`. -/
def startSession : GameSession :=
  { currentItem := rockItem, score := 0, usedItems := [rockItem], isActive := true }

/-- The typed errors a turn can produce (`InvalidTurn` taxonomy, spec.md §7). -/
inductive TurnError
  | itemAlreadyUsed
  | sessionNotActive
  deriving DecidableEq, Repr

/-- Modelled from the spec: the 4xx-equivalent HTTP status the backend attaches
to each `InvalidTurn` error; `ITEM_ALREADY_USED` is delivered as 422 (the
status the client handler in the API service tests for). -/
def turnErrorStatus : TurnError → Nat
  | .itemAlreadyUsed => 422
  | .sessionNotActive => 400

/-- The `end_game_data` payload of a game-ending turn: final score and the
items chain returned by the backend. -/
structure EndGameData where
  finalScore : Nat
  itemsChain : List JStr
  deriving DecidableEq, Repr

/-- The body of a successful `submit-comparison` response, as consumed by
`handleSubmit` in src/frontend/app.js. -/
structure TurnResponse where
  result : Bool
  score : Nat
  nextItem : JStr
  gameOver : Bool
  endGameData : Option EndGameData
  deriving DecidableEq, Repr

/-- Outcome of one backend `submitTurn`: the response or typed error, the
session afterwards, and whether the Resolution Coordinator was consulted. -/
structure TurnOutcome where
  outcome : Except TurnError TurnResponse
  session : GameSession
  resolutionAttempted : Bool
  deriving Repr

/-- Modelled from the spec: `submitTurn(input)` of the Session Engine
(spec.md §4.3; the FastAPI backend is absent from the repository).
Only valid in Active; rejects an input already in used-items
(case-insensitive) with `ITEM_ALREADY_USED` before any resolution; otherwise
consults the Resolution Coordinator (abstracted as `judge`): a win appends the
input, moves the current item, adds 1 to the score and stays Active; a loss
ends the session, returning the final score and the used-items chain
(the failing item is appended for display by the frontend, src/frontend/app.js). -/
def submitTurn (judge : JStr → JStr → Bool) (s : GameSession) (input : JStr) :
    TurnOutcome :=
  if s.isActive = false then
    { outcome := .error .sessionNotActive, session := s, resolutionAttempted := false }
  else if (s.usedItems.map lowerStr).contains (lowerStr input) then
    { outcome := .error .itemAlreadyUsed, session := s, resolutionAttempted := false }
  else if judge s.currentItem input then
    { outcome := .ok { result := true, score := s.score + 1, nextItem := input,
                       gameOver := false, endGameData := none },
      session := { currentItem := input, score := s.score + 1,
                   usedItems := s.usedItems ++ [input], isActive := true },
      resolutionAttempted := true }
  else
    { outcome := .ok { result := false, score := s.score, nextItem := s.currentItem,
                       gameOver := true,
                       endGameData := some { finalScore := s.score,
                                             itemsChain := s.usedItems } },
      session := { s with isActive := false },
      resolutionAttempted := true }

/-- Modelled from the spec: explicit `end()` of the Session Engine
(spec.md §4.3): transitions to Ended and finalizes identically to a losing
turn but without appending a failing item, so the returned chain is the
used-items list. -/
def endSession (s : GameSession) : EndGameData × GameSession :=
  ({ finalScore := s.score, itemsChain := s.usedItems }, { s with isActive := false })

/-- One entry of `gameState.history` (src/frontend/app.js `handleSubmit`). -/
structure HistoryItem where
  currentItem : JStr
  userInput : JStr
  result : Bool
  deriving DecidableEq, Repr

/-- Embedding of `gameState.lastComparison` (src/frontend/app.js `handleSubmit`). -/
structure LastComparison where
  currentItem : JStr
  userInput : JStr
  result : Bool
  deriving DecidableEq, Repr

/-- The frontend `gameState` object (src/frontend/app.js). -/
structure FrontGameState where
  currentItem : JStr
  score : Nat
  isActive : Bool
  history : List HistoryItem
  usedItems : List JStr
  lastComparison : Option LastComparison
  deriving DecidableEq, Repr

/-- The combined client/server state a request round-trip acts on: the
frontend `gameState` and the backend session it addresses. -/
structure AppState where
  game : FrontGameState
  session : GameSession
  deriving DecidableEq, Repr

/-- The state of the page before any game is started: `gameState` as
initialised at the top of src/frontend/app.js (no session exists yet; the
backend side is an inactive empty session). -/
def initialApp : AppState :=
  { game := { currentItem := rockItem, score := 0, isActive := false,
              history := [], usedItems := [], lastComparison := none },
    session := { currentItem := rockItem, score := 0, usedItems := [], isActive := false } }

/-- Embedding of `startGame` (src/frontend/app.js lines 179–223) composed with the
spec-modelled backend `start()`: `resetGameState()` (which does not clear
`lastComparison`) followed by installing the response: current item from the
backend, active, used-items initialised to `[response.current_item]`. -/
def startGame (st : AppState) : AppState :=
  { game := { currentItem := startSession.currentItem, score := 0, isActive := true,
              history := [], usedItems := [startSession.currentItem],
              lastComparison := st.game.lastComparison },
    session := startSession }

/-- The observable outcome of one `handleSubmit` call: the state afterwards,
whether a `submit-comparison` request was sent and with which payload, whether
the backend attempted a resolution, the client-visible error, and the
response / end-game data received. -/
structure SubmitResult where
  state : AppState
  requested : Bool
  payload : Option JStr
  resolutionAttempted : Bool
  err : Option TurnError
  response : Option TurnResponse
  endGameData : Option EndGameData
  deriving Repr

/-- A `handleSubmit` call that returns before sending any request. -/
def submitNoop (st : AppState) : SubmitResult :=
  { state := st, requested := false, payload := none, resolutionAttempted := false,
    err := none, response := none, endGameData := none }

/-- Embedding of `handleSubmit` (src/frontend/app.js lines 237–349) composed with the
spec-modelled backend turn: return early when the game is inactive, the
trimmed input is empty, or `validateUserInputBeforeSubmit` rejects it;
otherwise send the request; on an error response the catch branch changes no
game state; on success unshift the history entry, record `lastComparison`,
take the score from the response, and either deactivate (game over, the
end-game data is forwarded to `endGame`) or advance the current item and push
the input onto `usedItems`. -/
def handleSubmit (judge : JStr → JStr → Bool) (st : AppState) (raw : JStr) :
    SubmitResult :=
  if st.game.isActive = false then submitNoop st
  else
    let input := jsTrim raw
    if input = [] then submitNoop st
    else if (validateUserInputBeforeSubmit input).valid = false then submitNoop st
    else
      let t := submitTurn judge st.session input
      match t.outcome with
      | .error e =>
          { state := { st with session := t.session }, requested := true,
            payload := some input, resolutionAttempted := t.resolutionAttempted,
            err := some e, response := none, endGameData := none }
      | .ok resp =>
          let g1 : FrontGameState :=
            { st.game with
              history := { currentItem := st.game.currentItem, userInput := input,
                           result := resp.result } :: st.game.history,
              lastComparison := some { currentItem := st.game.currentItem,
                                       userInput := input, result := resp.result },
              score := resp.score }
          let g2 : FrontGameState :=
            if resp.gameOver then { g1 with isActive := false }
            else { g1 with currentItem := resp.nextItem,
                           usedItems := g1.usedItems ++ [input] }
          { state := { game := g2, session := t.session }, requested := true,
            payload := some input, resolutionAttempted := t.resolutionAttempted,
            err := none, response := some resp, endGameData := resp.endGameData }

/-- The items chain `endGame` (src/frontend/app.js lines 354–425) computes for
display from the server-provided chain: when the newest history entry is a
failure and `lastComparison.userInput` is a non-empty string, the failed item
is appended; otherwise the server chain is shown as is. -/
def endGameDisplayChain (g : FrontGameState) (serverChain : List JStr) :
    List JStr :=
  match g.history with
  | h :: _ =>
      if h.result = false then
        match g.lastComparison with
        | some lc => if lc.userInput ≠ [] then serverChain ++ [lc.userInput] else serverChain
        | none => serverChain
      else serverChain
  | [] => serverChain

/-- Explicitly ending the game (`endGame` called with no end-game data,
src/frontend/app.js lines 390–417): the chain displayed is computed from the
`items_chain` of the backend `end()` response. -/
def explicitEndChain (st : AppState) : List JStr :=
  endGameDisplayChain st.game (endSession st.session).1.itemsChain

/-- The combined states the client/server pair can reach: the pristine page,
and closure under `startGame` and `handleSubmit` round-trips (with any oracle
behaviour and any raw input). -/
inductive Reachable : AppState → Prop
  | init : Reachable initialApp
  | start {st : AppState} : Reachable st → Reachable (startGame st)
  | submit {st : AppState} (judge : JStr → JStr → Bool) (raw : JStr) :
      Reachable st → Reachable (handleSubmit judge st raw).state

/-! ## API service error handling (apiService.handleError) -/

/-- The parts of an HTTP error response `handleError` inspects: the status
and the optional `detail` and `code` fields of the JSON body. -/
structure HttpErrorResponse where
  status : Nat
  detail : Option String
  code : Option String
  deriving DecidableEq, Repr

/-- The three shapes of an axios error: a response outside 2xx was received,
the request got no response, or the request could not be set up. -/
inductive AxiosError
  | response (r : HttpErrorResponse)
  | request
  | setup
  deriving DecidableEq, Repr

/-- The error object `handleError` returns: a message and, for the item-reuse
case, an attached `code` property. -/
structure FormattedError where
  message : String
  code : Option String
  deriving DecidableEq, Repr

/-- JavaScript `a || b` on strings: the default is used when the value is
absent or the empty string. -/
def jsStrOr (a : Option String) (b : String) : String :=
  match a with
  | some s => if s = "" then b else s
  | none => b

/-- Embedding of `apiService.handleError` (src/unnamed/part_000 lines 251–272): on a
response error, attach code `ITEM_ALREADY_USED` exactly for status 422 with
body code `ITEM_ALREADY_USED`; otherwise a plain error with the detail (or a
default message). -/
def handleError : AxiosError → FormattedError
  | .response r =>
      let message := jsStrOr r.detail "An error occurred"
      if r.status = 422 ∧ r.code = some "ITEM_ALREADY_USED" then
        { message := message, code := some "ITEM_ALREADY_USED" }
      else
        { message := message, code := none }
  | .request => { message := "No response from server. Please check your connection.",
                  code := none }
  | .setup => { message := "Error setting up request. Please try again.",
                code := none }

/-! ## Resolution Coordinator coalescing (modelled from the spec) -/

/-- Modelled from the spec: a configuration of the Resolution Coordinator for
one normalized pair with several concurrent `resolve` callers (spec.md §4.2;
the FastAPI backend is absent from the repository). `record` is the usage
count of the pair's ComparisonRecord when it exists, `holderActive` says a
caller holds the per-pair resolution lock and is invoking the oracle,
`oracleCalls` counts oracle invocations, and the remaining fields count the
callers that have not started, that wait on the in-flight resolution, and
that are done. The oracle is assumed to succeed (the coalescing property of
spec.md §8 is about the success path). -/
structure CoordConfig where
  record : Option Nat
  holderActive : Bool
  oracleCalls : Nat
  nStart : Nat
  nWaiting : Nat
  nDone : Nat
  deriving DecidableEq, Repr

/-- Modelled from the spec: one interleaving step of the concurrent callers
(spec.md §4.2 algorithm):
* `hit` — a caller finds the record present, increments its usage count and
  returns it (step 2);
* `acquire` — a caller finds no record and no in-flight resolution and takes
  the per-pair lock (step 3);
* join — a caller finds no record but an in-flight resolution and attaches
  to it instead of issuing its own oracle call (step 3);
* `complete` — the lock holder's oracle call succeeds, `Store.put` creates
  the record of that first resolution, the lock is released (steps 4–5);
* `receive` — a waiter receives the freshly stored record, its resolution
  incrementing the usage count like every resolution does (step 5, spec.md §3). -/
inductive CoordStep : CoordConfig → CoordConfig → Prop
  | hit (k : Nat) (c : CoordConfig) :
      c.record = some k → 0 < c.nStart →
      CoordStep c { c with record := some (k + 1), nStart := c.nStart - 1,
                           nDone := c.nDone + 1 }
  | acquire (c : CoordConfig) :
      c.record = none → c.holderActive = false → 0 < c.nStart →
      CoordStep c { c with holderActive := true, nStart := c.nStart - 1 }
  | join (c : CoordConfig) :
      c.record = none → c.holderActive = true → 0 < c.nStart →
      CoordStep c { c with nStart := c.nStart - 1, nWaiting := c.nWaiting + 1 }
  | complete (c : CoordConfig) :
      c.holderActive = true →
      CoordStep c { c with record := some 1, holderActive := false,
                           oracleCalls := c.oracleCalls + 1, nDone := c.nDone + 1 }
  | receive (k : Nat) (c : CoordConfig) :
      c.record = some k → 0 < c.nWaiting →
      CoordStep c { c with record := some (k + 1), nWaiting := c.nWaiting - 1,
                           nDone := c.nDone + 1 }

/-- The configuration in which `n` concurrent `resolve` calls for one pair are
about to run while no ComparisonRecord exists. -/
def coordInit (n : Nat) : CoordConfig :=
  { record := none, holderActive := false, oracleCalls := 0,
    nStart := n, nWaiting := 0, nDone := 0 }

/-- All callers have returned and no resolution is in flight. -/
def coordFinal (c : CoordConfig) : Prop :=
  c.nStart = 0 ∧ c.nWaiting = 0 ∧ c.holderActive = false

instance (c : CoordConfig) : Decidable (coordFinal c) := by
  unfold coordFinal; infer_instance

/-- The inductive invariant of the coalescing run: the oracle has been called
exactly when the record exists, the usage count equals the number of callers
that have returned, the lock is only held while the record is absent, and no
caller is lost. -/
def coordInv (n : Nat) (c : CoordConfig) : Prop :=
  (c.record = none → c.oracleCalls = 0 ∧ c.nDone = 0) ∧
  (∀ k, c.record = some k → c.oracleCalls = 1 ∧ k = c.nDone ∧ c.holderActive = false) ∧
  c.nStart + c.nWaiting + c.nDone + (if c.holderActive then 1 else 0) = n

/-! ## Admin correction workflow (src/frontend/admin.js) -/

/-- Embedding of `editComparisonState` (src/frontend/admin.js): the pair being edited and
the report the edit was opened from, when any. -/
structure EditComparisonState where
  item1 : String
  item2 : String
  reportId : Option String
  deriving DecidableEq, Repr

/-- The values read from the edit-comparison form on save: the checked
`result` radio (`"item1"` or `"item2"`) and the description and emoji. -/
structure EditForm where
  result : String
  description : String
  emoji : String
  deriving DecidableEq, Repr

/-- An API request issued by the admin page. -/
inductive AdminApiCall
  | updateComparison (item1 item2 : String) (item1Wins item2Wins : Bool)
      (description emoji : String)
  | updateReportStatus (reportId status : String)
  deriving DecidableEq, Repr

/-- Embedding of `saveComparisonChanges` (src/frontend/admin.js lines 443–494; the handler
of the same name in src/frontend/app.js lines 1246–1306 issues the same
calls): validate description and emoji, send the comparison update, and, when
the edit is tied to a report, follow it with a status update to `reviewed`. -/
def saveComparisonChanges (ecs : EditComparisonState) (form : EditForm) :
    List AdminApiCall :=
  if form.description = "" then []
  else if form.emoji = "" then []
  else
    [.updateComparison ecs.item1 ecs.item2 (form.result = "item1")
        (form.result = "item2") form.description form.emoji] ++
    (match ecs.reportId with
     | some rid => [.updateReportStatus rid "reviewed"]
     | none => [])

/-- A stored report, as far as the status workflow is concerned. -/
structure ReportRec where
  reportId : String
  status : String
  deriving DecidableEq, Repr

/-- A stored ComparisonRecord (spec.md §3). -/
structure ComparisonRec where
  item1 : String
  item2 : String
  item1Wins : Bool
  item2Wins : Bool
  description : String
  emoji : String
  usageCount : Nat
  corrected : Bool
  deriving DecidableEq, Repr

/-- The backend stores the admin calls mutate. -/
structure AdminStores where
  comparisons : List ((String × String) × ComparisonRec)
  reports : List ReportRec
  deriving DecidableEq, Repr

/-- Look a comparison up by its key. -/
def storeGet (l : List ((String × String) × ComparisonRec)) (k : String × String) :
    Option ComparisonRec :=
  match l.find? (fun e => e.1 = k) with
  | some e => some e.2
  | none => none

/-- Modelled from the spec: `Store.correct` (spec.md §4.1; the FastAPI backend
is absent from the repository): unconditionally overwrite winner, description
and emoji, set `corrected := true`, keep the usage count; on a pair with no
record create one. -/
def storeCorrect (l : List ((String × String) × ComparisonRec))
    (i1 i2 : String) (w1 w2 : Bool) (d e : String) :
    List ((String × String) × ComparisonRec) :=
  match storeGet l (i1, i2) with
  | some old =>
      l.map (fun entry => if entry.1 = (i1, i2) then
        ((i1, i2), { old with item1Wins := w1, item2Wins := w2, description := d,
                              emoji := e, corrected := true }) else entry)
  | none =>
      l ++ [((i1, i2), { item1 := i1, item2 := i2, item1Wins := w1, item2Wins := w2,
                         description := d, emoji := e, usageCount := 0,
                         corrected := true })]

/-- Modelled from the spec: `setReportStatus` (spec.md §4.4; the FastAPI
backend is absent from the repository): direct status mutation of the named
report, rejecting only a terminal state regressing to `pending`. -/
def setReportStatusStore (reports : List ReportRec) (rid status : String) :
    List ReportRec :=
  reports.map fun r =>
    if r.reportId = rid then
      if (r.status = "approved" ∨ r.status = "rejected") ∧ status = "pending" then r
      else { r with status := status }
    else r

/-- Apply one admin API call to the stores. -/
def applyAdminCall (st : AdminStores) : AdminApiCall → AdminStores
  | .updateComparison i1 i2 w1 w2 d e =>
      { st with comparisons := storeCorrect st.comparisons i1 i2 w1 w2 d e }
  | .updateReportStatus rid status =>
      { st with reports := setReportStatusStore st.reports rid status }

/-- Apply a sequence of admin API calls in order. -/
def applyAdminCalls (st : AdminStores) (calls : List AdminApiCall) : AdminStores :=
  calls.foldl applyAdminCall st

/-! ## Admin report filters and pagination (src/frontend/admin.js, app.js) -/

/-- The five status-filter checkboxes of admin.html (in DOM order: All,
Pending, Reviewed, Approved, Rejected) together with the
`adminState.statusFilters` array. -/
structure FilterState where
  allChecked : Bool
  pendingChecked : Bool
  reviewedChecked : Bool
  approvedChecked : Bool
  rejectedChecked : Bool
  statusFilters : List String
  deriving DecidableEq, Repr

/-- The initial checkbox state of admin.html: only `status-all` is checked,
and `adminState.statusFilters` starts empty. -/
def initialFilterState : FilterState :=
  { allChecked := true, pendingChecked := false, reviewedChecked := false,
    approvedChecked := false, rejectedChecked := false, statusFilters := [] }

/-- Which checkbox the change event fired on. -/
inductive FilterBox
  | fbAll
  | fbPending
  | fbReviewed
  | fbApproved
  | fbRejected
  deriving DecidableEq, Repr

/-- Toggle the named checkbox (the DOM flips `checked` before the change
handler runs). -/
def toggleBox (st : FilterState) : FilterBox → FilterState
  | .fbAll => { st with allChecked := !st.allChecked }
  | .fbPending => { st with pendingChecked := !st.pendingChecked }
  | .fbReviewed => { st with reviewedChecked := !st.reviewedChecked }
  | .fbApproved => { st with approvedChecked := !st.approvedChecked }
  | .fbRejected => { st with rejectedChecked := !st.rejectedChecked }

/-- The recomputation `Array.from(statusCheckboxes).filter(checked &&
id !== 'status-all').map(value)` in DOM order. -/
def checkedStatusValues (st : FilterState) : List String :=
  (if st.pendingChecked then ["pending"] else []) ++
  (if st.reviewedChecked then ["reviewed"] else []) ++
  (if st.approvedChecked then ["approved"] else []) ++
  (if st.rejectedChecked then ["rejected"] else [])

/-- The `checked` property of the named checkbox (read by the handler after
the DOM toggle). -/
def boxChecked (st : FilterState) : FilterBox → Bool
  | .fbAll => st.allChecked
  | .fbPending => st.pendingChecked
  | .fbReviewed => st.reviewedChecked
  | .fbApproved => st.approvedChecked
  | .fbRejected => st.rejectedChecked

/-- Embedding of `handleStatusFilterChange` (src/frontend/admin.js lines 321–362), applied
to the post-toggle checkbox state: checking All clears the other boxes and
empties the filter set; unchecking All checks Pending and sets the filters to
`["pending"]`; checking a specific status unchecks All and recomputes the
filters; unchecking the last specific status re-checks All. -/
def handleStatusFilterChange (st : FilterState) (box : FilterBox) : FilterState :=
  if box = .fbAll then
    if st.allChecked then
      { st with pendingChecked := false, reviewedChecked := false,
                approvedChecked := false, rejectedChecked := false,
                statusFilters := [] }
    else
      { st with pendingChecked := true, statusFilters := ["pending"] }
  else
    let st1 := if boxChecked st box then { st with allChecked := false } else st
    let filters := checkedStatusValues st1
    let st2 := { st1 with statusFilters := filters }
    if filters = [] then { st2 with allChecked := true } else st2

/-- A checkbox change as the user sees it: the DOM toggle followed by the
change handler. -/
def filterChange (st : FilterState) (box : FilterBox) : FilterState :=
  handleStatusFilterChange (toggleBox st box) box

/-- Embedding of `apiService.getAdminReports` (src/unnamed/part_000 lines 284–305): the
query parameters, with `status` present exactly when a non-empty filter list
was supplied (joined with commas). -/
structure AdminReportsParams where
  page : Nat
  pageSize : Nat
  sortBy : String
  sortDirection : String
  status : Option String
  deriving DecidableEq, Repr

/-- Build the `getAdminReports` query from the options. -/
def getAdminReportsParams (page pageSize : Nat) (statusFilters : List String)
    (sortBy sortDirection : String) : AdminReportsParams :=
  { page := page, pageSize := pageSize, sortBy := sortBy,
    sortDirection := sortDirection,
    status := if statusFilters.length > 0 then
        some (String.intercalate "," statusFilters)
      else none }

/-- The pagination fields of `scoreboardState` (src/frontend/app.js) and of
`adminState` (src/frontend/admin.js); pages are JavaScript numbers, embedded
as integers. -/
structure PagerState where
  currentPage : Int
  totalPages : Int
  deriving DecidableEq, Repr

/-- Embedding of `navigateScoreboardPage` (src/frontend/app.js lines 1326–1337): compute
the target page; outside `[1, totalPages]` return without changing state or
loading; otherwise move and reload. The returned flag says whether a data
request was issued. -/
def navigateScoreboardPage (st : PagerState) (direction : Int) :
    PagerState × Bool :=
  let newPage := st.currentPage + direction
  if newPage < 1 ∨ newPage > st.totalPages then (st, false)
  else ({ st with currentPage := newPage }, true)

/-- Embedding of `navigateReportsPage` (src/frontend/admin.js lines 307–316): identical
guard for the admin reports pager. -/
def navigateReportsPage (st : PagerState) (direction : Int) :
    PagerState × Bool :=
  let newPage := st.currentPage + direction
  if newPage < 1 ∨ newPage > st.totalPages then (st, false)
  else ({ st with currentPage := newPage }, true)

/-- The oracle verdicts the integration test (src/test_integration.js) relies
on: paper beats rock, scissors beats paper, rock beats scissors, and no other
candidate wins. -/
def rpsJudge (current candidate : JStr) : Bool :=
  (current = codes "rock" ∧ candidate = codes "paper") ∨
  (current = codes "paper" ∧ candidate = codes "scissors") ∨
  (current = codes "scissors" ∧ candidate = codes "rock")

/-! ## Lemmas about substring matching and the character class -/

theorem mem_of_leadsWith {p l : JStr} (h : leadsWith p l = true) :
    ∀ c ∈ p, c ∈ l := by
  induction p generalizing l with
  | nil => intro c hc; cases hc
  | cons a as ih =>
    cases l with
    | nil => simp [leadsWith] at h
    | cons b bs =>
      simp only [leadsWith, Bool.and_eq_true, beq_iff_eq] at h
      intro c hc
      rcases List.mem_cons.mp hc with rfl | hc
      · rw [h.1]; exact List.mem_cons_self _ _
      · exact List.mem_cons_of_mem _ (ih h.2 c hc)

theorem mem_of_containsSeq {l p : JStr} (h : containsSeq l p = true) :
    ∀ c ∈ p, c ∈ l := by
  induction l with
  | nil =>
    cases p with
    | nil => intro c hc; cases hc
    | cons a as => simp [containsSeq, leadsWith] at h
  | cons b bs ih =>
    simp only [containsSeq, Bool.or_eq_true] at h
    rcases h with h | h
    · exact mem_of_leadsWith h
    · intro c hc; exact List.mem_cons_of_mem _ (ih h c hc)

theorem isAllowedCode_jsToLower {c : Nat} (h : isAllowedCode c = true) :
    isAllowedCode (jsToLower c) = true := by
  unfold jsToLower
  split
  · next hc =>
      simp only [isAllowedCode, decide_eq_true_eq]
      exact Or.inl ⟨by omega, by omega⟩
  · exact h

theorem not_mem_lowerStr {c : Nat} (hbad : isAllowedCode c = false) {s : JStr}
    (hs : s.all isAllowedCode = true) : c ∉ lowerStr s := by
  intro hmem
  obtain ⟨d, hd, hde⟩ := List.mem_map.mp hmem
  have hall : isAllowedCode d = true := by
    have := List.all_eq_true.mp hs d hd
    simpa using this
  have hlow := isAllowedCode_jsToLower hall
  rw [hde, hbad] at hlow
  cases hlow

theorem containsSeq_lower_eq_false {s p : JStr} (hs : s.all isAllowedCode = true)
    {c : Nat} (hc : c ∈ p) (hbad : isAllowedCode c = false) :
    containsSeq (lowerStr s) p = false := by
  cases h : containsSeq (lowerStr s) p
  · rfl
  · exact absurd (mem_of_containsSeq h c hc) (not_mem_lowerStr hbad hs)

/-- C10: `validateUserInputBeforeSubmit(s)` returns valid exactly when `s` is
a non-empty string of at most 50 characters drawn from the allowed character
class and not containing `document.cookie` ignoring case; the six other
harmful patterns are unreachable once the character-class check passes; and
`handleSubmit` only ever sends a comparison request whose payload (the
trimmed input) passes this validator. -/
theorem c10_validator (s : JStr) :
    ((validateUserInputBeforeSubmit s).valid = true ↔ specValidInput s) ∧
    (s.all isAllowedCode = true →
       containsSeq (lowerStr s) (codes "<script") = false ∧
       containsSeq (lowerStr s) (codes "javascript:") = false ∧
       containsSeq (lowerStr s) (codes "onerror=") = false ∧
       containsSeq (lowerStr s) (codes "onclick=") = false ∧
       containsSeq (lowerStr s) (codes "alert(") = false ∧
       containsSeq (lowerStr s) (codes "eval(") = false) ∧
    (∀ judge st, (handleSubmit judge st s).requested = true →
       (handleSubmit judge st s).payload = some (jsTrim s) ∧
       (validateUserInputBeforeSubmit (jsTrim s)).valid = true) := by
  have unreachable : s.all isAllowedCode = true →
      containsSeq (lowerStr s) (codes "<script") = false ∧
      containsSeq (lowerStr s) (codes "javascript:") = false ∧
      containsSeq (lowerStr s) (codes "onerror=") = false ∧
      containsSeq (lowerStr s) (codes "onclick=") = false ∧
      containsSeq (lowerStr s) (codes "alert(") = false ∧
      containsSeq (lowerStr s) (codes "eval(") = false := by
    intro hs
    exact ⟨containsSeq_lower_eq_false hs (c := 60) (by decide) (by decide),
           containsSeq_lower_eq_false hs (c := 58) (by decide) (by decide),
           containsSeq_lower_eq_false hs (c := 61) (by decide) (by decide),
           containsSeq_lower_eq_false hs (c := 61) (by decide) (by decide),
           containsSeq_lower_eq_false hs (c := 40) (by decide) (by decide),
           containsSeq_lower_eq_false hs (c := 40) (by decide) (by decide)⟩
  refine ⟨?_, unreachable, ?_⟩
  · unfold validateUserInputBeforeSubmit
    split
    · next hlen =>
      simp only [show (false = true) = False by simp]
      constructor
      · intro h; exact h.elim
      · intro hsv; exact absurd hsv.2.1 (by omega)
    · next hlen =>
      split
      · next hcc =>
        have hcc' : charClassTest s = false := by
          revert hcc; cases charClassTest s <;> simp
        constructor
        · intro h; simp at h
        · intro hsv
          have : charClassTest s = true := by
            simp only [charClassTest, Bool.and_eq_true, Bool.not_eq_true',
              List.isEmpty_eq_false]
            exact ⟨by simpa using hsv.1, hsv.2.2.1⟩
          rw [this] at hcc'; cases hcc'
      · next hcc =>
        have hcct : charClassTest s = true := by
          revert hcc; cases charClassTest s <;> simp
        have hcc2 : ¬s = [] ∧ ∀ x ∈ s, isAllowedCode x = true := by
          simpa [charClassTest] using hcct
        have hall : s.all isAllowedCode = true := List.all_eq_true.mpr hcc2.2
        have hne : s ≠ [] := hcc2.1
        obtain ⟨e1, e2, e3, e4, e5, e6⟩ := unreachable hall
        split
        · next hh =>
          constructor
          · intro h; simp at h
          · intro hsv
            simp only [harmfulTest, e1, e2, e3, e4, e5, e6, hsv.2.2.2,
              Bool.or_false, Bool.false_or] at hh
            cases hh
        · next hh =>
          have hh' : harmfulTest s = false := by
            revert hh; cases harmfulTest s <;> simp
          have hdc : containsSeq (lowerStr s) (codes "document.cookie") = false := by
            simp only [harmfulTest, Bool.or_eq_false_iff] at hh'
            exact hh'.2
          constructor
          · intro _
            exact ⟨hne, by omega, hall, hdc⟩
          · intro _; rfl
  · intro judge st
    simp only [handleSubmit]
    split
    · intro h; simp [submitNoop] at h
    · split
      · intro h; simp [submitNoop] at h
      · split
        · intro h; simp [submitNoop] at h
        · next hval =>
          have hv : (validateUserInputBeforeSubmit (jsTrim s)).valid = true := by
            revert hval; cases (validateUserInputBeforeSubmit (jsTrim s)).valid <;> simp
          split
          · intro _; exact ⟨rfl, hv⟩
          · intro _; exact ⟨rfl, hv⟩

/-- Witness for C10: the theorem applied at the concrete input `"paper"`. -/
theorem c10_validator_witness :
    specValidInput (codes "paper") ∧
    containsSeq (lowerStr (codes "paper")) (codes "<script") = false ∧
    (validateUserInputBeforeSubmit (jsTrim (codes "paper"))).valid = true :=
  ⟨(c10_validator (codes "paper")).1.mp (by decide),
   ((c10_validator (codes "paper")).2.1 (by decide)).1,
   ((c10_validator (codes "paper")).2.2 rpsJudge (startGame initialApp) (by decide)).2⟩

/-! ## Characterisations of one backend turn and one handleSubmit round trip -/

theorem submitTurn_inactive (judge : JStr → JStr → Bool) (s : GameSession)
    (input : JStr) (h : s.isActive = false) :
    submitTurn judge s input =
      { outcome := .error .sessionNotActive, session := s,
        resolutionAttempted := false } := by
  unfold submitTurn
  rw [if_pos h]

theorem submitTurn_used (judge : JStr → JStr → Bool) (s : GameSession)
    (input : JStr) (hact : s.isActive = true)
    (hused : (s.usedItems.map lowerStr).contains (lowerStr input) = true) :
    submitTurn judge s input =
      { outcome := .error .itemAlreadyUsed, session := s,
        resolutionAttempted := false } := by
  unfold submitTurn
  rw [hact, if_neg (by simp), if_pos hused]

theorem submitTurn_win (judge : JStr → JStr → Bool) (s : GameSession)
    (input : JStr) (hact : s.isActive = true)
    (hused : (s.usedItems.map lowerStr).contains (lowerStr input) = false)
    (hj : judge s.currentItem input = true) :
    submitTurn judge s input =
      { outcome := .ok { result := true, score := s.score + 1, nextItem := input,
                         gameOver := false, endGameData := none },
        session := { currentItem := input, score := s.score + 1,
                     usedItems := s.usedItems ++ [input], isActive := true },
        resolutionAttempted := true } := by
  unfold submitTurn
  rw [hact, if_neg (by simp), if_neg (by rw [hused]; exact Bool.false_ne_true), if_pos hj]

theorem submitTurn_lose (judge : JStr → JStr → Bool) (s : GameSession)
    (input : JStr) (hact : s.isActive = true)
    (hused : (s.usedItems.map lowerStr).contains (lowerStr input) = false)
    (hj : judge s.currentItem input = false) :
    submitTurn judge s input =
      { outcome := .ok { result := false, score := s.score, nextItem := s.currentItem,
                         gameOver := true,
                         endGameData := some { finalScore := s.score,
                                               itemsChain := s.usedItems } },
        session := { s with isActive := false },
        resolutionAttempted := true } := by
  unfold submitTurn
  rw [hact, if_neg (by simp), if_neg (by rw [hused]; exact Bool.false_ne_true), if_neg (by simp [hj])]

theorem handleSubmit_win (judge : JStr → JStr → Bool) (st : AppState) (raw : JStr)
    (h1 : st.game.isActive = true)
    (h2 : jsTrim raw ≠ [])
    (h3 : (validateUserInputBeforeSubmit (jsTrim raw)).valid = true)
    (hact : st.session.isActive = true)
    (hused : (st.session.usedItems.map lowerStr).contains (lowerStr (jsTrim raw)) = false)
    (hj : judge st.session.currentItem (jsTrim raw) = true) :
    handleSubmit judge st raw =
      { state := { game := { currentItem := jsTrim raw,
                             score := st.session.score + 1, isActive := st.game.isActive,
                             history := { currentItem := st.game.currentItem,
                                          userInput := jsTrim raw,
                                          result := true } :: st.game.history,
                             usedItems := st.game.usedItems ++ [jsTrim raw],
                             lastComparison := some { currentItem := st.game.currentItem,
                                                      userInput := jsTrim raw,
                                                      result := true } },
                   session := { currentItem := jsTrim raw, score := st.session.score + 1,
                                usedItems := st.session.usedItems ++ [jsTrim raw],
                                isActive := true } },
        requested := true, payload := some (jsTrim raw), resolutionAttempted := true,
        err := none,
        response := some { result := true, score := st.session.score + 1,
                           nextItem := jsTrim raw, gameOver := false,
                           endGameData := none },
        endGameData := none } := by
  simp only [handleSubmit, h1, h2, h3,
    submitTurn_win judge st.session (jsTrim raw) hact hused hj]
  simp

theorem handleSubmit_lose (judge : JStr → JStr → Bool) (st : AppState) (raw : JStr)
    (h1 : st.game.isActive = true)
    (h2 : jsTrim raw ≠ [])
    (h3 : (validateUserInputBeforeSubmit (jsTrim raw)).valid = true)
    (hact : st.session.isActive = true)
    (hused : (st.session.usedItems.map lowerStr).contains (lowerStr (jsTrim raw)) = false)
    (hj : judge st.session.currentItem (jsTrim raw) = false) :
    handleSubmit judge st raw =
      { state := { game := { currentItem := st.game.currentItem,
                             score := st.session.score, isActive := false,
                             history := { currentItem := st.game.currentItem,
                                          userInput := jsTrim raw,
                                          result := false } :: st.game.history,
                             usedItems := st.game.usedItems,
                             lastComparison := some { currentItem := st.game.currentItem,
                                                      userInput := jsTrim raw,
                                                      result := false } },
                   session := { st.session with isActive := false } },
        requested := true, payload := some (jsTrim raw), resolutionAttempted := true,
        err := none,
        response := some { result := false, score := st.session.score,
                           nextItem := st.session.currentItem, gameOver := true,
                           endGameData := some { finalScore := st.session.score,
                                                 itemsChain := st.session.usedItems } },
        endGameData := some { finalScore := st.session.score,
                              itemsChain := st.session.usedItems } } := by
  simp only [handleSubmit, h1, h2, h3,
    submitTurn_lose judge st.session (jsTrim raw) hact hused hj]
  simp

theorem submitTurn_ok_shape (judge : JStr → JStr → Bool) (s : GameSession)
    (input : JStr) (resp : TurnResponse)
    (h : (submitTurn judge s input).outcome = .ok resp) :
    (resp.gameOver = false ∧ resp.result = true) ∨
    (resp.gameOver = true ∧ resp.result = false) := by
  unfold submitTurn at h
  split at h
  · cases h
  · split at h
    · cases h
    · split at h
      · cases h
        exact Or.inl ⟨rfl, rfl⟩
      · cases h
        exact Or.inr ⟨rfl, rfl⟩

theorem submitTurn_error_frame (judge : JStr → JStr → Bool) (s : GameSession)
    (input : JStr) (e : TurnError)
    (h : (submitTurn judge s input).outcome = .error e) :
    (submitTurn judge s input).session = s ∧
    (submitTurn judge s input).resolutionAttempted = false := by
  unfold submitTurn at h ⊢
  split
  · exact ⟨rfl, rfl⟩
  · split
    · exact ⟨rfl, rfl⟩
    · next hc1 hc2 =>
      split
      · next hc3 =>
        rw [if_neg hc1, if_neg hc2, if_pos hc3] at h
        cases h
      · next hc3 =>
        rw [if_neg hc1, if_neg hc2, if_neg hc3] at h
        cases h

/-- Invariant of the reachable client states: while the game is active, the
newest history entry (when any) records a win. -/
theorem reachable_activeHist {st : AppState} (h : Reachable st) :
    st.game.isActive = true →
    ∀ hd tl, st.game.history = hd :: tl → hd.result = true := by
  induction h with
  | init =>
    intro _ hd tl hh
    cases hh
  | start _ ih =>
    intro _ hd tl hh
    cases hh
  | submit judge raw _ ih =>
    simp only [handleSubmit]
    split
    · exact ih
    · split
      · exact ih
      · split
        · exact ih
        · split
          · next e ht =>
            intro hact hd tl hh
            exact ih hact hd tl hh
          · next resp ht =>
            rcases submitTurn_ok_shape _ _ _ _ ht with ⟨hgo, hres⟩ | ⟨hgo, hres⟩
            · intro _ hd tl hh
              have hng : ¬(resp.gameOver = true) := by simp [hgo]
              rw [if_neg hng] at hh
              injection hh with hh3 _
              rw [← hh3]
              exact hres
            · intro hact _ _ _
              rw [if_pos hgo] at hact
              exact (Bool.false_ne_true hact).elim

/-! ## Claim theorems C2–C6 -/

/-- C2: in an active session, a not-yet-used input that the oracle judges a
winner makes the turn succeed: the input is appended to used-items, becomes
the current item, the score rises by exactly 1 and the session stays Active;
concretely, starting a game and submitting "paper" against "rock" yields
result true, next item "paper" and score 1, and a second winning submission
("scissors") yields score 2. -/
theorem c2_winning_turn :
    (∀ (judge : JStr → JStr → Bool) (s : GameSession) (input : JStr),
       s.isActive = true →
       (s.usedItems.map lowerStr).contains (lowerStr input) = false →
       judge s.currentItem input = true →
       (submitTurn judge s input).session.usedItems = s.usedItems ++ [input] ∧
       (submitTurn judge s input).session.currentItem = input ∧
       (submitTurn judge s input).session.score = s.score + 1 ∧
       (submitTurn judge s input).session.isActive = true ∧
       (submitTurn judge s input).outcome =
         .ok { result := true, score := s.score + 1, nextItem := input,
               gameOver := false, endGameData := none }) ∧
    ((handleSubmit rpsJudge (startGame initialApp) (codes "paper")).response =
       some { result := true, score := 1, nextItem := codes "paper",
              gameOver := false, endGameData := none } ∧
     (handleSubmit rpsJudge (startGame initialApp) (codes "paper")).state.game.currentItem =
       codes "paper" ∧
     (handleSubmit rpsJudge (startGame initialApp) (codes "paper")).state.game.score = 1 ∧
     (handleSubmit rpsJudge (startGame initialApp) (codes "paper")).state.game.isActive = true ∧
     (handleSubmit rpsJudge (startGame initialApp) (codes "paper")).state.game.usedItems =
       [codes "rock", codes "paper"] ∧
     (handleSubmit rpsJudge
        (handleSubmit rpsJudge (startGame initialApp) (codes "paper")).state
        (codes "scissors")).state.game.score = 2 ∧
     (handleSubmit rpsJudge
        (handleSubmit rpsJudge (startGame initialApp) (codes "paper")).state
        (codes "scissors")).state.game.currentItem = codes "scissors") := by
  constructor
  · intro judge s input hact hused hj
    rw [submitTurn_win judge s input hact hused hj]
    exact ⟨rfl, rfl, rfl, rfl, rfl⟩
  · refine ⟨?_, ?_, ?_, ?_, ?_, ?_, ?_⟩ <;> decide

/-- Witness for C2: the general part applied to the fresh session and the
input "paper". -/
theorem c2_winning_turn_witness :
    startSession.isActive = true ∧
    (startSession.usedItems.map lowerStr).contains (lowerStr (codes "paper")) = false ∧
    rpsJudge startSession.currentItem (codes "paper") = true ∧
    (submitTurn rpsJudge startSession (codes "paper")).session.score =
      startSession.score + 1 :=
  ⟨rfl, by decide, by decide,
   (c2_winning_turn.1 rpsJudge startSession (codes "paper") rfl (by decide)
      (by decide)).2.2.1⟩

/-- C3: submitting an item already in the session's used-items list
(case-insensitively) fails with the typed error `ITEM_ALREADY_USED`, carried
as HTTP 422, the session stays Active and no resolution is attempted; and the
client error handler attaches code `ITEM_ALREADY_USED` exactly when the
response status is 422 and the body's `code` field is `ITEM_ALREADY_USED`. -/
theorem c3_item_already_used :
    (∀ r : HttpErrorResponse,
       (handleError (.response r)).code = some "ITEM_ALREADY_USED" ↔
         (r.status = 422 ∧ r.code = some "ITEM_ALREADY_USED")) ∧
    (handleError .request).code = none ∧
    (handleError .setup).code = none ∧
    (∀ (judge : JStr → JStr → Bool) (s : GameSession) (input : JStr),
       s.isActive = true →
       (s.usedItems.map lowerStr).contains (lowerStr input) = true →
       submitTurn judge s input =
         { outcome := .error .itemAlreadyUsed, session := s,
           resolutionAttempted := false } ∧
       (submitTurn judge s input).session.isActive = true) ∧
    turnErrorStatus .itemAlreadyUsed = 422 := by
  refine ⟨?_, rfl, rfl, ?_, rfl⟩
  · intro r
    by_cases hc : r.status = 422 ∧ r.code = some "ITEM_ALREADY_USED"
    · simp only [handleError, if_pos hc]
      exact ⟨fun _ => hc, fun _ => by trivial⟩
    · simp only [handleError, if_neg hc]
      constructor
      · intro h; exact Option.noConfusion h
      · intro h; exact absurd h hc
  · intro judge s input hact hused
    refine ⟨submitTurn_used judge s input hact hused, ?_⟩
    rw [submitTurn_used judge s input hact hused]
    exact hact

/-- Witness for C3: the error handler at a concrete 422 response and the
turn rejection at a concrete session. -/
theorem c3_item_already_used_witness :
    (handleError (.response ⟨422, some "Item already used",
        some "ITEM_ALREADY_USED"⟩)).code = some "ITEM_ALREADY_USED" ∧
    submitTurn rpsJudge startSession (codes "rock") =
      { outcome := .error .itemAlreadyUsed, session := startSession,
        resolutionAttempted := false } :=
  ⟨(c3_item_already_used.1 _).mpr ⟨rfl, rfl⟩,
   (c3_item_already_used.2.2.2.1 rpsJudge startSession (codes "rock") rfl
      (by decide)).1⟩

/-- C4: whenever a `handleSubmit` attempt ends in an error (or never sends a
request at all), the whole game state — current item, score, used items,
active flag, history — is unchanged and no resolution was attempted. -/
theorem c4_error_frame (judge : JStr → JStr → Bool) (st : AppState) (raw : JStr)
    (h : (handleSubmit judge st raw).err.isSome = true ∨
         (handleSubmit judge st raw).requested = false) :
    (handleSubmit judge st raw).state = st ∧
    (handleSubmit judge st raw).resolutionAttempted = false := by
  revert h
  simp only [handleSubmit]
  split
  · intro _; exact ⟨rfl, rfl⟩
  · split
    · intro _; exact ⟨rfl, rfl⟩
    · split
      · intro _; exact ⟨rfl, rfl⟩
      · split
        · next e ht =>
          intro _
          obtain ⟨hsession, hres⟩ :=
            submitTurn_error_frame judge st.session (jsTrim raw) e ht
          constructor
          · show ({ st with
                session := (submitTurn judge st.session (jsTrim raw)).session } :
                AppState) = st
            rw [hsession]
          · exact hres
        · next resp ht =>
          intro h
          rcases h with h | h
          · exact (Bool.false_ne_true h).elim
          · exact Bool.noConfusion h

/-- Witness for C4: re-submitting the seed item "rock" right after the start
fails and leaves the state untouched. -/
theorem c4_error_frame_witness :
    ((handleSubmit rpsJudge (startGame initialApp) (codes "rock")).err.isSome = true ∨
     (handleSubmit rpsJudge (startGame initialApp) (codes "rock")).requested = false) ∧
    (handleSubmit rpsJudge (startGame initialApp) (codes "rock")).state =
      startGame initialApp ∧
    (handleSubmit rpsJudge (startGame initialApp) (codes "rock")).resolutionAttempted =
      false :=
  ⟨Or.inl (by decide),
   (c4_error_frame rpsJudge (startGame initialApp) (codes "rock") (Or.inl (by decide))).1,
   (c4_error_frame rpsJudge (startGame initialApp) (codes "rock") (Or.inl (by decide))).2⟩

/-- C5: a newly started session has current item "rock", score 0, is active,
and its used-items list is exactly the one-element list of the seed item —
both in the spec-modelled backend session and in the frontend game state. -/
theorem c5_start_session (st : AppState) :
    (startGame st).game.currentItem = rockItem ∧
    (startGame st).game.score = 0 ∧
    (startGame st).game.isActive = true ∧
    (startGame st).game.usedItems = [rockItem] ∧
    (startGame st).session = startSession ∧
    startSession.currentItem = rockItem ∧
    startSession.score = 0 ∧
    startSession.isActive = true ∧
    startSession.usedItems = [rockItem] :=
  ⟨rfl, rfl, rfl, rfl, rfl, rfl, rfl, rfl, rfl⟩

/-- C6: when a session ends on a losing submission, the chain displayed is the
session's used-items list with the losing input appended; when the game is
ended explicitly while the session is active, no failing item is appended and
the chain is the used-items list itself. -/
theorem c6_end_chain :
    (∀ (judge : JStr → JStr → Bool) (st : AppState) (raw : JStr),
       st.game.isActive = true →
       jsTrim raw ≠ [] →
       (validateUserInputBeforeSubmit (jsTrim raw)).valid = true →
       st.session.isActive = true →
       (st.session.usedItems.map lowerStr).contains (lowerStr (jsTrim raw)) = false →
       judge st.session.currentItem (jsTrim raw) = false →
       (handleSubmit judge st raw).endGameData =
         some { finalScore := st.session.score, itemsChain := st.session.usedItems } ∧
       endGameDisplayChain (handleSubmit judge st raw).state.game
           st.session.usedItems = st.session.usedItems ++ [jsTrim raw]) ∧
    (∀ st : AppState, Reachable st → st.game.isActive = true →
       explicitEndChain st = st.session.usedItems) := by
  constructor
  · intro judge st raw h1 h2 h3 hact hused hj
    rw [handleSubmit_lose judge st raw h1 h2 h3 hact hused hj]
    refine ⟨rfl, ?_⟩
    simp [endGameDisplayChain, h2]
  · intro st hre hact
    have hh := reachable_activeHist hre hact
    show endGameDisplayChain st.game (endSession st.session).1.itemsChain =
      st.session.usedItems
    unfold endGameDisplayChain
    rcases hhist : st.game.history with _ | ⟨hd, tl⟩
    · rfl
    · simp [hh hd tl hhist, endSession]

/-- Witness for C6: a first-turn loss on "fire" appends the failing item; an
explicit end right after the start shows the bare seed chain. -/
theorem c6_end_chain_witness :
    (jsTrim (codes "fire") ≠ [] ∧
     endGameDisplayChain
       (handleSubmit (fun _ _ => false) (startGame initialApp) (codes "fire")).state.game
       (startGame initialApp).session.usedItems =
         (startGame initialApp).session.usedItems ++ [jsTrim (codes "fire")]) ∧
    (Reachable (startGame initialApp) ∧
     explicitEndChain (startGame initialApp) = (startGame initialApp).session.usedItems) :=
  ⟨⟨by decide, (c6_end_chain.1 (fun _ _ => false) (startGame initialApp) (codes "fire")
       rfl (by decide) (by decide) rfl (by decide) rfl).2⟩,
   ⟨.start .init, c6_end_chain.2 (startGame initialApp) (.start .init) rfl⟩⟩

/-! ## Coalescing invariant and claim C1 -/

theorem coordInv_init (n : Nat) : coordInv n (coordInit n) := by
  refine ⟨fun _ => ⟨rfl, rfl⟩, ?_, ?_⟩
  · intro k hk
    cases hk
  · simp [coordInit]

theorem coordInv_step {n : Nat} {c c' : CoordConfig} (hinv : coordInv n c)
    (hstep : CoordStep c c') : coordInv n c' := by
  obtain ⟨hnone, hsome, hsum⟩ := hinv
  cases hstep with
  | hit k c hrec hstart =>
    obtain ⟨ho, hk, hhold⟩ := hsome k hrec
    refine ⟨?_, ?_, ?_⟩
    · intro h
      exact Option.noConfusion h
    · intro k' hk'
      injection hk' with h1
      subst h1
      refine ⟨ho, ?_, hhold⟩
      show k + 1 = c.nDone + 1
      omega
    · simp only [coordInv] at *
      rw [hhold] at hsum ⊢
      simp only [if_neg Bool.false_ne_true] at hsum ⊢
      omega
  | acquire c hrec hhold hstart =>
    obtain ⟨ho, hd⟩ := hnone hrec
    refine ⟨?_, ?_, ?_⟩
    · intro _
      exact ⟨ho, hd⟩
    · intro k' hk'
      have h2 : c.record = some k' := hk'
      rw [hrec] at h2
      exact Option.noConfusion h2
    · rw [hhold] at hsum
      simp at hsum ⊢
      omega
  | join c hrec hhold hstart =>
    obtain ⟨ho, hd⟩ := hnone hrec
    refine ⟨?_, ?_, ?_⟩
    · intro _
      exact ⟨ho, hd⟩
    · intro k' hk'
      have h2 : c.record = some k' := hk'
      rw [hrec] at h2
      exact Option.noConfusion h2
    · rw [hhold] at hsum ⊢
      simp at hsum ⊢
      omega
  | complete c hhold =>
    have hrec : c.record = none := by
      cases hr : c.record with
      | none => rfl
      | some k =>
        obtain ⟨_, _, hh⟩ := hsome k hr
        rw [hh] at hhold
        exact Bool.noConfusion hhold
    obtain ⟨ho, hd⟩ := hnone hrec
    refine ⟨?_, ?_, ?_⟩
    · intro h
      exact Option.noConfusion h
    · intro k' hk'
      injection hk' with h1
      subst h1
      refine ⟨?_, ?_, rfl⟩
      · show c.oracleCalls + 1 = 1
        omega
      · show 1 = c.nDone + 1
        omega
    · rw [hhold] at hsum
      simp at hsum ⊢
      omega
  | receive k c hrec hwait =>
    obtain ⟨ho, hk, hhold⟩ := hsome k hrec
    refine ⟨?_, ?_, ?_⟩
    · intro h
      exact Option.noConfusion h
    · intro k' hk'
      injection hk' with h1
      subst h1
      refine ⟨ho, ?_, hhold⟩
      show k + 1 = c.nDone + 1
      omega
    · rw [hhold] at hsum ⊢
      simp only [if_neg Bool.false_ne_true] at hsum ⊢
      omega

theorem coordInv_reachable {n : Nat} {c c' : CoordConfig}
    (h : Relation.ReflTransGen CoordStep c c') (hinv : coordInv n c) :
    coordInv n c' := by
  induction h with
  | refl => exact hinv
  | tail _ hstep ih => exact coordInv_step ih hstep

/-- C1: any complete interleaving of `n + 1` concurrent `resolve` calls for
one pair, starting while no ComparisonRecord exists, performs exactly one
oracle invocation and leaves the pair's usage count at `n + 1` — one
increment per call. -/
theorem c1_coalescing (n : Nat) (c : CoordConfig)
    (h : Relation.ReflTransGen CoordStep (coordInit (n + 1)) c)
    (hfin : coordFinal c) :
    c.oracleCalls = 1 ∧ c.record = some (n + 1) := by
  obtain ⟨hnone, hsome, hsum⟩ := coordInv_reachable h (coordInv_init (n + 1))
  obtain ⟨h0, h1, h2⟩ := hfin
  rw [h0, h1, h2] at hsum
  simp only [if_neg Bool.false_ne_true] at hsum
  cases hr : c.record with
  | none =>
    obtain ⟨_, hd⟩ := hnone hr
    omega
  | some k =>
    obtain ⟨ho, hk, _⟩ := hsome k hr
    refine ⟨ho, ?_⟩
    rw [hk]
    have h3 : c.nDone = n + 1 := by omega
    rw [h3]

/-- The four intermediate configurations of the concrete two-caller
interleaving used as the C1 witness. -/
def coordW1 : CoordConfig := ⟨none, true, 0, 1, 0, 0⟩

def coordW2 : CoordConfig := ⟨none, true, 0, 0, 1, 0⟩

def coordW3 : CoordConfig := ⟨some 1, false, 1, 0, 1, 1⟩

def coordW4 : CoordConfig := ⟨some 2, false, 1, 0, 0, 2⟩

/-- Witness for C1: a concrete complete interleaving of two concurrent calls
(acquire, join, oracle completion, waiter receive) reaching the final
configuration with one oracle call and usage count 2. -/
theorem c1_coalescing_witness :
    coordFinal coordW4 ∧ coordW4.oracleCalls = 1 ∧ coordW4.record = some (1 + 1) := by
  have s1 : CoordStep (coordInit 2) coordW1 := CoordStep.acquire _ rfl rfl (by decide)
  have s2 : CoordStep coordW1 coordW2 := CoordStep.join _ rfl rfl (by decide)
  have s3 : CoordStep coordW2 coordW3 := CoordStep.complete _ rfl
  have s4 : CoordStep coordW3 coordW4 := CoordStep.receive 1 _ rfl (by decide)
  have htrace : Relation.ReflTransGen CoordStep (coordInit 2) coordW4 :=
    Relation.ReflTransGen.head s1 (Relation.ReflTransGen.head s2
      (Relation.ReflTransGen.head s3 (Relation.ReflTransGen.single s4)))
  have hfin : coordFinal coordW4 := ⟨rfl, rfl, rfl⟩
  exact ⟨hfin, (c1_coalescing 1 _ htrace hfin).1, (c1_coalescing 1 _ htrace hfin).2⟩

/-! ## Store lemmas and claims C7–C9 -/

theorem storeGet_cons (e : (String × String) × ComparisonRec)
    (es : List ((String × String) × ComparisonRec)) (k : String × String) :
    storeGet (e :: es) k = if e.1 = k then some e.2 else storeGet es k := by
  by_cases he : e.1 = k
  · rw [if_pos he]
    simp [storeGet, List.find?_cons_of_pos, he]
  · rw [if_neg he]
    unfold storeGet
    rw [List.find?_cons_of_neg]
    simpa using he

theorem storeGet_append_none {l : List ((String × String) × ComparisonRec)}
    {k : String × String} (h : storeGet l k = none) (r : ComparisonRec) :
    storeGet (l ++ [(k, r)]) k = some r := by
  induction l with
  | nil =>
    simp [storeGet]
  | cons e es ih =>
    rw [storeGet_cons] at h
    rw [List.cons_append, storeGet_cons]
    by_cases he : e.1 = k
    · rw [if_pos he] at h
      cases h
    · rw [if_neg he] at h
      rw [if_neg he]
      exact ih h

theorem storeGet_map_update {l : List ((String × String) × ComparisonRec)}
    {k : String × String} {old : ComparisonRec} (h : storeGet l k = some old)
    (new : ComparisonRec) :
    storeGet (l.map fun entry => if entry.1 = k then (k, new) else entry) k =
      some new := by
  induction l with
  | nil =>
    simp [storeGet] at h
  | cons e es ih =>
    rw [storeGet_cons] at h
    rw [List.map_cons]
    by_cases he : e.1 = k
    · rw [if_pos he, storeGet_cons]
      simp
    · rw [if_neg he, storeGet_cons, if_neg he]
      rw [if_neg he] at h
      exact ih h

theorem storeCorrect_get (l : List ((String × String) × ComparisonRec))
    (i1 i2 : String) (w1 w2 : Bool) (d e : String) :
    ∃ rec, storeGet (storeCorrect l i1 i2 w1 w2 d e) (i1, i2) = some rec ∧
      rec.item1Wins = w1 ∧ rec.item2Wins = w2 ∧ rec.description = d ∧
      rec.emoji = e ∧ rec.corrected = true := by
  unfold storeCorrect
  cases hg : storeGet l (i1, i2) with
  | none => exact ⟨_, storeGet_append_none hg _, rfl, rfl, rfl, rfl, rfl⟩
  | some old => exact ⟨_, storeGet_map_update hg _, rfl, rfl, rfl, rfl, rfl⟩

theorem setReportStatus_mem {reports : List ReportRec} {rid : String}
    {r : ReportRec} (hr : r ∈ setReportStatusStore reports rid "reviewed")
    (hid : r.reportId = rid) : r.status = "reviewed" := by
  unfold setReportStatusStore at hr
  obtain ⟨r0, hr0, hmap⟩ := List.mem_map.mp hr
  by_cases h0 : r0.reportId = rid
  · rw [if_pos h0, if_neg (by simp)] at hmap
    rw [← hmap]
  · rw [if_neg h0] at hmap
    rw [hmap] at h0
    exact absurd hid h0

/-- C7: saving an admin comparison correction applies the correction to the
comparison store and, exactly when the edit was opened from a report, also
sets that report's status to `reviewed`; a correction not tied to any report
leaves every report untouched. -/
theorem c7_correction_reviewed (ecs : EditComparisonState) (form : EditForm)
    (stores : AdminStores)
    (hd : form.description ≠ "") (he : form.emoji ≠ "") :
    (∀ rid, ecs.reportId = some rid →
       (applyAdminCalls stores (saveComparisonChanges ecs form)).reports =
         setReportStatusStore stores.reports rid "reviewed" ∧
       ∀ r ∈ (applyAdminCalls stores (saveComparisonChanges ecs form)).reports,
         r.reportId = rid → r.status = "reviewed") ∧
    (ecs.reportId = none →
       (applyAdminCalls stores (saveComparisonChanges ecs form)).reports =
         stores.reports) ∧
    (∃ rec, storeGet
        (applyAdminCalls stores (saveComparisonChanges ecs form)).comparisons
        (ecs.item1, ecs.item2) = some rec ∧
      rec.item1Wins = decide (form.result = "item1") ∧
      rec.item2Wins = decide (form.result = "item2") ∧
      rec.description = form.description ∧
      rec.emoji = form.emoji ∧
      rec.corrected = true) := by
  refine ⟨?_, ?_, ?_⟩
  · intro rid hrid
    have heq : (applyAdminCalls stores (saveComparisonChanges ecs form)).reports =
        setReportStatusStore stores.reports rid "reviewed" := by
      unfold applyAdminCalls saveComparisonChanges
      rw [if_neg hd, if_neg he, hrid]
      rfl
    refine ⟨heq, ?_⟩
    intro r hr hid
    rw [heq] at hr
    exact setReportStatus_mem hr hid
  · intro hrid
    unfold applyAdminCalls saveComparisonChanges
    rw [if_neg hd, if_neg he, hrid]
    rfl
  · have hcomp : (applyAdminCalls stores (saveComparisonChanges ecs form)).comparisons =
        storeCorrect stores.comparisons ecs.item1 ecs.item2
          (decide (form.result = "item1")) (decide (form.result = "item2"))
          form.description form.emoji := by
      unfold applyAdminCalls saveComparisonChanges
      rw [if_neg hd, if_neg he]
      cases ecs.reportId <;> rfl
    rw [hcomp]
    exact storeCorrect_get stores.comparisons ecs.item1 ecs.item2 _ _
      form.description form.emoji

/-- Witness for C7: a correction for (rock, lava) tied to report "r1" sets
that pending report to reviewed, and an untied one changes no report. -/
theorem c7_correction_reviewed_witness :
    ("lava melts rock" : String) ≠ "" ∧
    (applyAdminCalls ⟨[], [⟨"r1", "pending"⟩]⟩
       (saveComparisonChanges ⟨"rock", "lava", some "r1"⟩
         ⟨"item2", "lava melts rock", "x"⟩)).reports =
      setReportStatusStore [⟨"r1", "pending"⟩] "r1" "reviewed" ∧
    (applyAdminCalls ⟨[], [⟨"r1", "pending"⟩]⟩
       (saveComparisonChanges ⟨"rock", "lava", none⟩
         ⟨"item2", "lava melts rock", "x"⟩)).reports = [⟨"r1", "pending"⟩] :=
  ⟨by decide,
   ((c7_correction_reviewed ⟨"rock", "lava", some "r1"⟩
       ⟨"item2", "lava melts rock", "x"⟩ ⟨[], [⟨"r1", "pending"⟩]⟩
       (by decide) (by decide)).1 "r1" rfl).1,
   (c7_correction_reviewed ⟨"rock", "lava", none⟩
       ⟨"item2", "lava melts rock", "x"⟩ ⟨[], [⟨"r1", "pending"⟩]⟩
       (by decide) (by decide)).2.1 rfl⟩

/-- The checkbox invariant of the admin status filter: when "All" is checked,
no specific status box is. -/
def filterInv (st : FilterState) : Prop :=
  st.allChecked = true →
    st.pendingChecked = false ∧ st.reviewedChecked = false ∧
    st.approvedChecked = false ∧ st.rejectedChecked = false

/-- C8: the report-listing query carries a status filter exactly when the
selected filter set is non-empty, and after any filter-checkbox change the
filter set is empty exactly when the "All" option is selected (from any state
satisfying the checkbox invariant, which the initial page state does). -/
theorem c8_status_filters :
    (∀ (page pageSize : Nat) (filters : List String) (sb sd : String),
       ((getAdminReportsParams page pageSize filters sb sd).status.isSome = true ↔
         filters ≠ [])) ∧
    (∀ (st : FilterState) (box : FilterBox), filterInv st →
       ((filterChange st box).statusFilters = [] ↔
          (filterChange st box).allChecked = true) ∧
       filterInv (filterChange st box)) ∧
    filterInv initialFilterState := by
  refine ⟨?_, ?_, ?_⟩
  · intro page pageSize filters sb sd
    cases filters <;> simp [getAdminReportsParams]
  · intro st box hinv
    obtain ⟨a, p, rv, ap, rj, fl⟩ := st
    cases box <;> cases a <;> cases p <;> cases rv <;> cases ap <;> cases rj <;>
      simp_all [filterChange, toggleBox, handleStatusFilterChange, boxChecked,
        checkedStatusValues, filterInv]
  · intro _
    exact ⟨rfl, rfl, rfl, rfl⟩

/-- Witness for C8: toggling the Pending box from the initial state gives a
non-empty filter set with "All" deselected, and a non-empty filter list makes
the query carry a status parameter. -/
theorem c8_status_filters_witness :
    filterInv initialFilterState ∧
    ((filterChange initialFilterState .fbPending).statusFilters = [] ↔
       (filterChange initialFilterState .fbPending).allChecked = true) ∧
    (getAdminReportsParams 1 10 ["pending"] "created_at" "desc").status.isSome =
      true :=
  ⟨c8_status_filters.2.2,
   (c8_status_filters.2.1 initialFilterState .fbPending c8_status_filters.2.2).1,
   (c8_status_filters.1 1 10 ["pending"] "created_at" "desc").mpr (by decide)⟩

/-- C9: both pagers preserve `1 ≤ currentPage ≤ totalPages`, and a navigation
whose target falls outside `[1, totalPages]` leaves the state unchanged and
issues no data request. -/
theorem c9_pagination :
    (∀ (st : PagerState) (d : Int),
       1 ≤ st.currentPage → st.currentPage ≤ st.totalPages →
       1 ≤ (navigateScoreboardPage st d).1.currentPage ∧
       (navigateScoreboardPage st d).1.currentPage ≤
         (navigateScoreboardPage st d).1.totalPages) ∧
    (∀ (st : PagerState) (d : Int),
       (st.currentPage + d < 1 ∨ st.currentPage + d > st.totalPages) →
       navigateScoreboardPage st d = (st, false)) ∧
    (∀ (st : PagerState) (d : Int),
       1 ≤ st.currentPage → st.currentPage ≤ st.totalPages →
       1 ≤ (navigateReportsPage st d).1.currentPage ∧
       (navigateReportsPage st d).1.currentPage ≤
         (navigateReportsPage st d).1.totalPages) ∧
    (∀ (st : PagerState) (d : Int),
       (st.currentPage + d < 1 ∨ st.currentPage + d > st.totalPages) →
       navigateReportsPage st d = (st, false)) := by
  refine ⟨?_, ?_, ?_, ?_⟩ <;> intro st d
  · intro h1 h2
    simp only [navigateScoreboardPage]
    split
    · exact ⟨h1, h2⟩
    · next hc =>
      push_neg at hc
      exact ⟨hc.1, hc.2⟩
  · intro h
    simp only [navigateScoreboardPage]
    rw [if_pos h]
  · intro h1 h2
    simp only [navigateReportsPage]
    split
    · exact ⟨h1, h2⟩
    · next hc =>
      push_neg at hc
      exact ⟨hc.1, hc.2⟩
  · intro h
    simp only [navigateReportsPage]
    rw [if_pos h]

/-- Witness for C9: in-range and out-of-range navigations on concrete pager
states for both pagers. -/
theorem c9_pagination_witness :
    (1 ≤ (navigateScoreboardPage ⟨1, 3⟩ 1).1.currentPage ∧
     (navigateScoreboardPage ⟨1, 3⟩ 1).1.currentPage ≤
       (navigateScoreboardPage ⟨1, 3⟩ 1).1.totalPages) ∧
    navigateScoreboardPage ⟨1, 3⟩ (-1) = (⟨1, 3⟩, false) ∧
    (1 ≤ (navigateReportsPage ⟨3, 3⟩ (-1)).1.currentPage ∧
     (navigateReportsPage ⟨3, 3⟩ (-1)).1.currentPage ≤
       (navigateReportsPage ⟨3, 3⟩ (-1)).1.totalPages) ∧
    navigateReportsPage ⟨3, 3⟩ 1 = (⟨3, 3⟩, false) :=
  ⟨c9_pagination.1 ⟨1, 3⟩ 1 (by decide) (by decide),
   c9_pagination.2.1 ⟨1, 3⟩ (-1) (Or.inl (by decide)),
   c9_pagination.2.2.1 ⟨3, 3⟩ (-1) (by decide) (by decide),
   c9_pagination.2.2.2 ⟨3, 3⟩ 1 (Or.inr (by decide))⟩

end WhatBeats
